import Mathlib

/-!
Verification of the LAN-Orangutan discovery-and-reconciliation engine.

The definitions below are a shallow embedding of the Go sources:
- `internal/types/types.go` (the `Device` record and `ScanResult`),
- `internal/storage/storage.go` (the persistent device store: merge,
  update, delete, atomic persistence, load),
- `internal/scanner/scanner.go` (CIDR validation, backend fallback,
  rate limiting),
- the scanner vendor table (`macVendors` / `GetMACVendor`).

Go `time.Time` values are modelled as `Int` (nanoseconds since the epoch;
the zero value is `0`, matching `time.Time.IsZero`).  Go `float64` latency
values are modelled as `Rat`.  Go maps are modelled as functions into
`Option`; Go's fallible operations return `Except`.
-/

/-- Embeds `types.Device` (internal/types/types.go).  Field names follow the
Go struct.  `ResponseTime` is the optional measured round-trip latency. -/
structure Device where
  IP : String
  MAC : String
  Hostname : String
  Vendor : String
  Label : String
  Notes : String
  Group : String
  FirstSeen : Int
  LastSeen : Int
  ResponseTime : Option Rat
deriving DecidableEq

/-- The in-memory device map `map[string]*types.Device`, keyed by address. -/
abbrev DeviceMap := String → Option Device

/-- The update applied by `Storage.MergeDevices` to an existing record
(storage.go lines 224-230): overwrite the liveness-observed fields with the
discovery's values and set last-observed to the merge time. -/
def mergeRecord (existing d : Device) (t : Int) : Device :=
  { existing with
    MAC := d.MAC
    Hostname := d.Hostname
    Vendor := d.Vendor
    LastSeen := t
    ResponseTime := d.ResponseTime }

/-- The record created by `Storage.MergeDevices` for a previously unseen
address (storage.go lines 231-236): the discovered device itself with
first-observed and last-observed set to the merge time. -/
def newRecord (d : Device) (t : Int) : Device :=
  { d with FirstSeen := t, LastSeen := t }

/-- One iteration of the loop in `Storage.MergeDevices`: reconcile a single
discovered device into the map. -/
def mergeOne (t : Int) (m : DeviceMap) (d : Device) : DeviceMap :=
  match m d.IP with
  | some existing => fun a => if d.IP = a then some (mergeRecord existing d t) else m a
  | none => fun a => if d.IP = a then some (newRecord d t) else m a

/-- The full loop of `Storage.MergeDevices` (storage.go lines 218-240) as a
pure map transformer: fold the reconciliation step over the discovered list,
with `t` playing the role of `time.Now()`. -/
def mergeList (t : Int) (m : DeviceMap) (discovered : List Device) : DeviceMap :=
  discovered.foldl (mergeOne t) m

/-- Repeatedly apply `mergeRecord` for a run of discoveries that all hit the
same existing record. -/
def mergeFold (t : Int) (b : Device) (hits : List Device) : Device :=
  hits.foldl (fun r d => mergeRecord r d t) b

/-- The effect of one merge pass on a single address, given the record
previously stored there (`cur`) and the sublist of discoveries carrying that
address (`hits`), in batch order. -/
def mergeHits (t : Int) (cur : Option Device) (hits : List Device) : Option Device :=
  match cur, hits with
  | some ex, _ => some (mergeFold t ex hits)
  | none, [] => none
  | none, d :: rest => some (mergeFold t (newRecord d t) rest)

/-- User-owned data and identity of a record: the fields scan-derived merges
must never change on an existing record. -/
def sameUser (x y : Device) : Prop :=
  x.Label = y.Label ∧ x.Notes = y.Notes ∧ x.Group = y.Group ∧
  x.FirstSeen = y.FirstSeen ∧ x.IP = y.IP

/-- Embeds the `scanner.Scanner` struct: only the configured minimum
interval between scans of one range matters (a duration, as `Int`
nanoseconds). -/
structure Scanner where
  minInterval : Int

/-- Embeds `Scanner.CheckRateLimit` (scanner.go lines 285-296).  Go reads the
current clock via `time.Since`; here `now` is explicit:
`elapsed = now - lastScan`. -/
def Scanner.CheckRateLimit (s : Scanner) (now lastScan : Int) : Bool × Int :=
  if lastScan = 0 then (true, 0)
  else
    if s.minInterval ≤ now - lastScan then (true, 0)
    else (false, s.minInterval - (now - lastScan))

/-- Character normalization used on hardware addresses: Go applies
`strings.ReplaceAll(mac, "-", ":")` then `strings.ToUpper`; both are
per-character maps on the relevant alphabet, and upper-casing a colon is the
identity, so the composition is this single character map. -/
def upDash (c : Char) : Char :=
  if c = '-' then ':' else c.toUpper

/-- Upper-cased, dash-normalized form of a hardware-address string, as the
character-wise map over the string's characters (Go's byte-wise `ToUpper`
and `ReplaceAll` coincide with this on the ASCII alphabet of hardware
addresses). -/
def normalizeMAC (s : String) : String :=
  ⟨s.data.map upDash⟩

/-- Embeds the static `macVendors` table of the scanner package, verbatim.
Go stores it as a map with these (distinct) keys; an association list with
`lookup` has the same lookup semantics. -/
def macVendors : List (String × String) :=
  [("00:50:56", "VMware"), ("00:0C:29", "VMware"), ("08:00:27", "VirtualBox"),
   ("52:54:00", "QEMU/KVM"), ("B8:27:EB", "Raspberry Pi"), ("DC:A6:32", "Raspberry Pi"),
   ("E4:5F:01", "Raspberry Pi"), ("28:CD:C1", "Raspberry Pi"), ("D8:3A:DD", "Raspberry Pi"),
   ("00:E0:4C", "Realtek"), ("00:15:5D", "Microsoft Hyper-V"), ("00:23:AE", "Dell"),
   ("00:14:22", "Dell"), ("18:A9:9B", "Dell"), ("3C:D9:2B", "HP"),
   ("00:1E:0B", "HP"), ("00:21:5A", "HP"), ("00:1F:C6", "ASUSTek"),
   ("00:1A:92", "ASUSTek"), ("14:DA:E9", "ASUSTek"), ("00:1C:C0", "Intel"),
   ("00:1F:3B", "Intel"), ("3C:A9:F4", "Intel"), ("5C:B9:01", "Ubiquiti"),
   ("00:27:22", "Ubiquiti"), ("04:18:D6", "Ubiquiti"), ("74:83:C2", "Ubiquiti"),
   ("FC:EC:DA", "Ubiquiti"), ("00:18:0A", "Cisco"), ("00:1B:2A", "Cisco"),
   ("64:F6:9D", "Cisco"), ("00:14:BF", "Linksys"), ("00:1A:70", "Linksys"),
   ("C0:C1:C0", "Linksys"), ("00:1F:33", "Netgear"), ("00:22:3F", "Netgear"),
   ("A0:63:91", "Netgear"), ("08:86:3B", "Belkin"), ("94:10:3E", "Belkin"),
   ("00:26:5A", "D-Link"), ("00:1E:58", "D-Link"), ("1C:7E:E5", "D-Link"),
   ("00:1D:0F", "TP-Link"), ("14:CC:20", "TP-Link"), ("50:C7:BF", "TP-Link"),
   ("00:25:00", "Apple"), ("00:26:08", "Apple"), ("28:CF:DA", "Apple"),
   ("3C:15:C2", "Apple"), ("5C:F9:38", "Apple"), ("78:31:C1", "Apple"),
   ("18:65:90", "Samsung"), ("50:01:BB", "Samsung"), ("94:35:0A", "Samsung"),
   ("2C:54:91", "Microsoft"), ("7C:1E:52", "Microsoft")]

/-- Embeds `GetMACVendor` of the scanner package: empty input is Unknown;
otherwise normalize, require at least a full three-octet key (8 characters),
and look the key up in the static table. -/
def GetMACVendor (mac : String) : String :=
  if mac = "" then "Unknown"
  else
    let m := normalizeMAC mac
    if m.length < 8 then "Unknown"
    else
      match macVendors.lookup ⟨m.data.take 8⟩ with
      | some v => v
      | none => "Unknown"

/-- Vendor resolution as the specification words it: use the upper-cased,
dash-normalized first three octets (first eight characters) of the hardware
address as the lookup key, defaulting to Unknown for no match or a
missing/too-short hardware address.  Stated independently of the source
function so the two can be compared. -/
def vendorResolutionSpec (mac : String) : String :=
  let m := normalizeMAC mac
  if m.length < 8 then "Unknown"
  else (macVendors.lookup ⟨m.data.take 8⟩).getD "Unknown"

/-- Embeds `types.ScanResult`: the ephemeral outcome of one scan. -/
structure ScanResult where
  Success : Bool
  Error : String
  Devices : List Device
  DeviceCount : Nat
  Network : String
  Scanner : String
  Duration : Rat
  Timestamp : Int
deriving DecidableEq

/-- Splits a character list at every occurrence of one separator character,
the semantics `strings.Split` (and `String.splitOn`) has for a single-byte
separator. -/
def splitOnChar (sep : Char) : List Char → List (List Char)
  | [] => [[]]
  | c :: rest =>
    let r := splitOnChar sep rest
    if c = sep then [] :: r
    else
      match r with
      | [] => [[c]]
      | h :: tcs => (c :: h) :: tcs

/-- Parses one dotted-quad field the way `net.ParseIP` does for IPv4:
decimal digits only, no leading zero (except the field "0" itself), value at
most 255. -/
def parseOctet (cs : List Char) : Option Nat :=
  if cs = [] then none
  else if ¬ cs.all (fun c => c.isDigit) then none
  else if 1 < cs.length ∧ cs.head? = some '0' then none
  else
    let v := cs.foldl (fun n c => 10 * n + (c.toNat - 48)) 0
    if v ≤ 255 then some v else none

/-- Parses an IPv4 dotted-quad address (the address form the claims range
over; `net.ParseCIDR` additionally accepts IPv6, which no claim exercises). -/
def parseIPv4 (cs : List Char) : Option (Nat × Nat × Nat × Nat) :=
  match splitOnChar '.' cs with
  | [a, b, c, d] =>
    match parseOctet a, parseOctet b, parseOctet c, parseOctet d with
    | some x, some y, some z, some w => some (x, y, z, w)
    | _, _, _, _ => none
  | _ => none

/-- Parses the mask part of a CIDR: decimal digits with value 0-32 for an
IPv4 address (Go's `dtoi` on the suffix, range-checked by `ParseCIDR`). -/
def parseMaskLen (cs : List Char) : Option Nat :=
  if cs = [] then none
  else if ¬ cs.all (fun c => c.isDigit) then none
  else
    let v := cs.foldl (fun n c => 10 * n + (c.toNat - 48)) 0
    if v ≤ 32 then some v else none

/-- Embeds the `net.ParseCIDR` validation performed at the top of
`Scanner.Scan`: split at the slash, parse address and prefix length. -/
def parseCIDR (s : String) : Option ((Nat × Nat × Nat × Nat) × Nat) :=
  match splitOnChar '/' s.data with
  | [addr, mask] =>
    match parseIPv4 addr, parseMaskLen mask with
    | some ip4, some n => some (ip4, n)
    | _, _ => none
  | _ => none

/-- Embeds `Scanner.Scan` (scanner.go lines 72-107).  The two probe backends
are inputs (`nm` for nmap, `ar` for arp-scan), each either a device list
plus the backend identifier or an error, modelling what `scanWithNmap` /
`scanWithArpScan` return; `dur` and `t` stand for the measured wall-clock
duration and `time.Now()` at completion.  The second component of the result
records whether any backend was consulted at all: on a malformed CIDR the Go
code returns `(nil, error)` before touching either backend, so it is
`false` exactly there. -/
def Scan (nm ar : Except String (List Device × String)) (dur : Rat) (t : Int)
    (cidr : String) : Except String ScanResult × Bool :=
  match parseCIDR cidr with
  | none => (Except.error "invalid CIDR", false)
  | some _ =>
    match nm with
    | Except.ok (devs, which) =>
      (Except.ok
        { Success := true, Error := "", Devices := devs, DeviceCount := devs.length,
          Network := cidr, Scanner := which, Duration := dur, Timestamp := t }, true)
    | Except.error _ =>
      match ar with
      | Except.ok (devs, which) =>
        (Except.ok
          { Success := true, Error := "", Devices := devs, DeviceCount := devs.length,
            Network := cidr, Scanner := which, Duration := dur, Timestamp := t }, true)
      | Except.error e2 =>
        (Except.ok
          { Success := false, Error := e2, Devices := [], DeviceCount := 0,
            Network := cidr, Scanner := "", Duration := 0, Timestamp := t }, true)

/-- Content of one on-disk JSON file, as far as the store can distinguish on
load: absent files are `none` in the file system map; present files are
empty, a well-formed devices document, a well-formed scan-state document, or
content that fails to decode. -/
inductive FileData where
  | emptyFile : FileData
  | devJson : DeviceMap → FileData
  | stateJson : (String → Int) → FileData
  | corrupt : FileData

/-- The file system visible to the store: path to content. -/
abbrev FS := String → Option FileData

/-- Embeds the successful execution of `atomicWrite` (storage.go lines
100-135): the data is written to a fresh temp file in the same directory,
synced, closed and renamed over `path`, so the net effect on the file system
is that `path` now holds `data`, the temp name is gone again, and no other
path is touched. -/
def atomicWrite (path : String) (data : FileData) (fs : FS) : FS :=
  fun q => if q = path then some data else fs q

/-- Embeds the `Storage` struct: the two backing paths, the device map and
the per-range last-scan map (`ScanState.LastScan`, absent keys being the
zero time). -/
structure Store where
  devicesFile : String
  stateFile : String
  devices : DeviceMap
  state : String → Int

/-- Embeds `Storage.saveDevices`: marshal the whole device map and write it
atomically over the devices file. -/
def saveDevices (st : Store) (fs : FS) : FS :=
  atomicWrite st.devicesFile (FileData.devJson st.devices) fs

/-- Errors surfaced by store operations.  `notFound` carries the address the
Go code formats into "device not found: %s". -/
inductive StorageErr where
  | loadDevicesFailed : StorageErr
  | loadStateFailed : StorageErr
  | notFound : String → StorageErr
deriving DecidableEq

/-- Embeds `Storage.MergeDevices` as a whole-store operation: reconcile the
batch into the map, then persist the full map. -/
def Store.MergeDevices (st : Store) (fs : FS) (t : Int) (discovered : List Device) :
    Store × FS :=
  let st' := { st with devices := mergeList t st.devices discovered }
  (st', saveDevices st' fs)

/-- Embeds `Storage.UpdateDevice` (whole-record write): blank user fields
and a zero first-observed on the incoming record are backfilled from an
existing record before the write. -/
def Store.UpdateDevice (st : Store) (fs : FS) (device : Device) : Store × FS :=
  let device' :=
    match st.devices device.IP with
    | some existing =>
      { device with
        Label := if device.Label = "" then existing.Label else device.Label
        Notes := if device.Notes = "" then existing.Notes else device.Notes
        Group := if device.Group = "" then existing.Group else device.Group
        FirstSeen := if device.FirstSeen = 0 then existing.FirstSeen else device.FirstSeen }
    | none => device
  let st' := { st with devices := fun a => if device.IP = a then some device' else st.devices a }
  (st', saveDevices st' fs)

/-- Embeds `Storage.UpdateDeviceFields` (storage.go lines 182-202): a `none`
argument is a nil pointer (field left alone); an unknown address returns the
not-found error before anything is modified or written. -/
def Store.UpdateDeviceFields (st : Store) (fs : FS) (ip : String)
    (label notes grp : Option String) : Except StorageErr (Store × FS) :=
  match st.devices ip with
  | none => Except.error (StorageErr.notFound ip)
  | some device =>
    let device' :=
      { device with
        Label := label.getD device.Label
        Notes := notes.getD device.Notes
        Group := grp.getD device.Group }
    let st' := { st with devices := fun a => if ip = a then some device' else st.devices a }
    Except.ok (st', saveDevices st' fs)

/-- Embeds `Storage.DeleteDevice` (storage.go lines 205-215): an unknown
address returns the not-found error before anything is modified or
written. -/
def Store.DeleteDevice (st : Store) (fs : FS) (ip : String) :
    Except StorageErr (Store × FS) :=
  match st.devices ip with
  | none => Except.error (StorageErr.notFound ip)
  | some _ =>
    let st' := { st with devices := fun a => if ip = a then none else st.devices a }
    Except.ok (st', saveDevices st' fs)

/-- Outcome of reading one backing file, before `New` decides what is
fatal. -/
inductive LoadErr where
  | notExist : LoadErr
  | parseFailed : LoadErr
deriving DecidableEq

/-- Embeds `Storage.loadDevices`: a missing file is the not-exist error
(filtered out by `New`); an empty file leaves the map empty; a devices
document replaces the map; undecodable content is an unmarshal error. -/
def loadDevices (fs : FS) (path : String) : Except LoadErr DeviceMap :=
  match fs path with
  | none => Except.error LoadErr.notExist
  | some FileData.emptyFile => Except.ok (fun _ => none)
  | some (FileData.devJson m) => Except.ok m
  | some (FileData.stateJson _) => Except.error LoadErr.parseFailed
  | some FileData.corrupt => Except.error LoadErr.parseFailed

/-- Embeds `Storage.loadState`, analogously.  A devices-shaped document
decodes into a `ScanState` with no `last_scan` key (Go's decoder ignores
unknown object keys), leaving the zero map. -/
def loadState (fs : FS) (path : String) : Except LoadErr (String → Int) :=
  match fs path with
  | none => Except.error LoadErr.notExist
  | some FileData.emptyFile => Except.ok (fun _ => 0)
  | some (FileData.stateJson ls) => Except.ok ls
  | some (FileData.devJson _) => Except.ok (fun _ => 0)
  | some FileData.corrupt => Except.error LoadErr.parseFailed

/-- The freshly initialized store `New` builds before loading. -/
def emptyStore (devicesFile stateFile : String) : Store :=
  { devicesFile := devicesFile, stateFile := stateFile,
    devices := fun _ => none, state := fun _ => 0 }

/-- Embeds `storage.New` (storage.go lines 25-49): start from the empty
store, load devices then state, treating only not-exist as benign — any
other load error fails construction. -/
def storageNew (devicesFile stateFile : String) (fs : FS) : Except StorageErr Store :=
  let base := emptyStore devicesFile stateFile
  match loadDevices fs devicesFile with
  | Except.error LoadErr.parseFailed => Except.error StorageErr.loadDevicesFailed
  | Except.error LoadErr.notExist =>
    (match loadState fs stateFile with
     | Except.error LoadErr.parseFailed => Except.error StorageErr.loadStateFailed
     | Except.error LoadErr.notExist => Except.ok base
     | Except.ok ls => Except.ok { base with state := ls })
  | Except.ok m =>
    (match loadState fs stateFile with
     | Except.error LoadErr.parseFailed => Except.error StorageErr.loadStateFailed
     | Except.error LoadErr.notExist => Except.ok { base with devices := m }
     | Except.ok ls => Except.ok { base with devices := m, state := ls })

/-- File system reached after a fallible store operation: on success the
operation's file system, on an error the one from before the call (an error
return performs no write). -/
def fsAfter (r : Except StorageErr (Store × FS)) (fs : FS) : FS :=
  match r with
  | Except.ok p => p.2
  | Except.error _ => fs

/-- Store reached after a fallible store operation, analogously. -/
def stAfter (r : Except StorageErr (Store × FS)) (st : Store) : Store :=
  match r with
  | Except.ok p => p.1
  | Except.error _ => st

/-- Sample record: the annotated television of the specification's merge
scenario. -/
def devTV : Device :=
  { IP := "10.0.0.5", MAC := "AA:BB:CC:DD:EE:FF", Hostname := "tv", Vendor := "Acme",
    Label := "TV", Notes := "", Group := "Living Room",
    FirstSeen := 1, LastSeen := 2, ResponseTime := none }

/-- Sample discovery of the same address with a new hostname, as a scan
produces it (no user annotations). -/
def devTVScan : Device :=
  { IP := "10.0.0.5", MAC := "AA:BB:CC:DD:EE:FF", Hostname := "tv2", Vendor := "Acme",
    Label := "", Notes := "", Group := "",
    FirstSeen := 0, LastSeen := 0, ResponseTime := some 3 }

/-- Store state holding exactly the television record. -/
def mapTV : DeviceMap :=
  fun a => if a = "10.0.0.5" then some devTV else none

/-- Discovery of the television's address with every liveness field empty or
absent, to exercise the overwrite-with-empty behavior. -/
def devEmptyScan : Device :=
  { IP := "10.0.0.5", MAC := "", Hostname := "", Vendor := "",
    Label := "", Notes := "", Group := "", FirstSeen := 0, LastSeen := 0,
    ResponseTime := none }

/-- Two discoveries sharing one address but carrying different hardware
addresses, for the batch-order analysis. -/
def dupA : Device :=
  { IP := "10.0.0.7", MAC := "00:11:22:33:44:55", Hostname := "", Vendor := "",
    Label := "", Notes := "", Group := "", FirstSeen := 0, LastSeen := 0,
    ResponseTime := none }

/-- Second discovery of the duplicated address. -/
def dupB : Device :=
  { IP := "10.0.0.7", MAC := "66:77:88:99:AA:BB", Hostname := "", Vendor := "",
    Label := "", Notes := "", Group := "", FirstSeen := 0, LastSeen := 0,
    ResponseTime := none }

/-- A discovery that (unlike genuine scanner output) carries a label. -/
def devLabelled : Device :=
  { IP := "10.0.0.9", MAC := "", Hostname := "", Vendor := "",
    Label := "oops", Notes := "", Group := "", FirstSeen := 0, LastSeen := 0,
    ResponseTime := none }

/-- On-disk devices document used by the persistence examples. -/
def mapW : DeviceMap :=
  fun a => if a = "10.0.0.5" then some devTV else none

/-- Store whose devices file is already on disk. -/
def stW : Store :=
  { devicesFile := "devices.json", stateFile := "scan_state.json",
    devices := mapW, state := fun _ => 0 }

/-- File system holding only the current devices document. -/
def fsW : FS :=
  fun q => if q = "devices.json" then some (FileData.devJson mapW) else none

/-- File system whose primary devices file is undecodable while a valid
backup sibling sits right next to it. -/
def fsCorruptWithBackup : FS :=
  fun q =>
    if q = "devices.json" then some FileData.corrupt
    else if q = "devices.json.backup" then some (FileData.devJson mapW)
    else none

theorem mergeHits_nil (t : Int) (cur : Option Device) : mergeHits t cur [] = cur := by
  cases cur <;> rfl

/-- Pointwise characterization of the merge loop: the record stored at an
address after a merge depends only on the record previously there and on the
discoveries in the batch that carry that address, in order. -/
theorem mergeList_char (t : Int) (L : List Device) (m : DeviceMap) (a : String) :
    mergeList t m L a = mergeHits t (m a) (L.filter fun d => d.IP = a) := by
  induction L generalizing m with
  | nil => simp [mergeList, mergeHits_nil]
  | cons d L ih =>
    have step : mergeList t m (d :: L) = mergeList t (mergeOne t m d) L := rfl
    rw [step, ih]
    by_cases hd : d.IP = a
    · subst hd
      cases hm : m d.IP with
      | some ex =>
        have h1 : (mergeOne t m d) d.IP = some (mergeRecord ex d t) := by
          simp [mergeOne, hm]
        rw [h1]
        simp [mergeHits, mergeFold, List.filter_cons]
      | none =>
        have h1 : (mergeOne t m d) d.IP = some (newRecord d t) := by
          simp [mergeOne, hm]
        rw [h1]
        simp [mergeHits, mergeFold, List.filter_cons]
    · have h1 : (mergeOne t m d) a = m a := by
        cases hm : m d.IP <;> simp [mergeOne, hm, hd]
      rw [h1]
      simp [List.filter_cons, hd]

theorem sameUser_trans {x y z : Device} (h1 : sameUser x y) (h2 : sameUser y z) :
    sameUser x z := by
  obtain ⟨a1, a2, a3, a4, a5⟩ := h1
  obtain ⟨b1, b2, b3, b4, b5⟩ := h2
  exact ⟨a1.trans b1, a2.trans b2, a3.trans b3, a4.trans b4, a5.trans b5⟩

theorem mergeRecord_user (b d : Device) (t : Int) : sameUser (mergeRecord b d t) b :=
  ⟨rfl, rfl, rfl, rfl, rfl⟩

theorem newRecord_user (d : Device) (t : Int) :
    (newRecord d t).Label = d.Label ∧ (newRecord d t).Notes = d.Notes ∧
    (newRecord d t).Group = d.Group ∧ (newRecord d t).IP = d.IP :=
  ⟨rfl, rfl, rfl, rfl⟩

theorem mergeFold_cons (t : Int) (b d : Device) (l : List Device) :
    mergeFold t b (d :: l) = mergeFold t (mergeRecord b d t) l := rfl

theorem mergeFold_user (t : Int) (l : List Device) (b : Device) :
    sameUser (mergeFold t b l) b := by
  induction l generalizing b with
  | nil => exact ⟨rfl, rfl, rfl, rfl, rfl⟩
  | cons d l ih =>
    rw [mergeFold_cons]
    exact sameUser_trans (ih (mergeRecord b d t)) (mergeRecord_user b d t)

theorem mergeRecord_mergeRecord (b e d : Device) (t1 t2 : Int) :
    mergeRecord (mergeRecord b e t1) d t2 = mergeRecord b d t2 := rfl

theorem mergeFold_concat (t : Int) (l : List Device) (d : Device) :
    ∀ b : Device, mergeFold t b (l ++ [d]) = mergeRecord b d t := by
  induction l with
  | nil => intro b; rfl
  | cons e l ih =>
    intro b
    rw [List.cons_append, mergeFold_cons, ih (mergeRecord b e t),
      mergeRecord_mergeRecord]

theorem newRecord_absorb (d : Device) (t : Int) :
    mergeRecord (newRecord d t) d t = newRecord d t := rfl

/-- The second of two folds over the same nonempty run of discoveries lands
on the same record as the first, up to the last-observed stamp, whenever the
two starting records agree on the user-owned data. -/
theorem mergeFold_cons_collapse (t1 t2 : Int) (l : List Device) :
    ∀ (d : Device) (x y : Device), sameUser x y →
      mergeFold t2 x (d :: l) = { mergeFold t1 y (d :: l) with LastSeen := t2 } := by
  induction l with
  | nil =>
    intro d x y h
    obtain ⟨h1, h2, h3, h4, h5⟩ := h
    show mergeRecord x d t2 = { mergeRecord y d t1 with LastSeen := t2 }
    cases x; cases y
    simp_all [mergeRecord]
  | cons e l ih =>
    intro d x y h
    rw [mergeFold_cons, mergeFold_cons t1]
    exact ih e (mergeRecord x d t2) (mergeRecord y d t1) h

/-- Merging a nonempty run of hits a second time only refreshes the
last-observed stamp. -/
theorem mergeHits_idem_ne (t1 t2 : Int) (cur : Option Device) (d : Device)
    (rest : List Device) :
    mergeHits t2 (mergeHits t1 cur (d :: rest)) (d :: rest) =
      (mergeHits t1 cur (d :: rest)).map (fun r => { r with LastSeen := t2 }) := by
  cases cur with
  | some ex =>
    exact congrArg some
      (mergeFold_cons_collapse t1 t2 rest d (mergeFold t1 ex (d :: rest)) ex
        (mergeFold_user t1 (d :: rest) ex))
  | none =>
    have hbridge : mergeFold t1 (newRecord d t1) (d :: rest) =
        mergeFold t1 (newRecord d t1) rest := by
      rw [mergeFold_cons, newRecord_absorb]
    show some (mergeFold t2 (mergeFold t1 (newRecord d t1) rest) (d :: rest)) =
      some { mergeFold t1 (newRecord d t1) rest with LastSeen := t2 }
    rw [← hbridge]
    exact congrArg some
      (mergeFold_cons_collapse t1 t2 rest d
        (mergeFold t1 (newRecord d t1) (d :: rest)) (newRecord d t1)
        (mergeFold_user t1 (d :: rest) (newRecord d t1)))

theorem mergeFold_cons_lastSeen (t : Int) (rest : List Device) :
    ∀ (d b : Device), (mergeFold t b (d :: rest)).LastSeen = t := by
  induction rest with
  | nil => intro d b; rfl
  | cons e l ih =>
    intro d b
    rw [mergeFold_cons]
    exact ih e (mergeRecord b d t)

theorem filterHits_len_le_one (L : List Device) (a : String)
    (h : (L.map Device.IP).Nodup) :
    (L.filter (fun d => d.IP = a)).length ≤ 1 := by
  induction L with
  | nil => simp
  | cons d L ih =>
    rw [List.map_cons, List.nodup_cons] at h
    by_cases hd : d.IP = a
    · have hnil : L.filter (fun x => x.IP = a) = [] := by
        rw [List.filter_eq_nil_iff]
        intro x hx
        simp only [decide_eq_true_eq]
        intro hxa
        apply h.1
        have hmem : x.IP ∈ L.map Device.IP := List.mem_map_of_mem Device.IP hx
        rwa [hxa, ← hd] at hmem
      rw [List.filter_cons_of_pos (by simp [hd]), hnil]
      simp
    · rw [List.filter_cons_of_neg (by simp [hd])]
      exact ih h.2

theorem perm_len_le_one_eq {l1 l2 : List Device} (h : l1.Perm l2)
    (hl : l1.length ≤ 1) : l1 = l2 := by
  cases l1 with
  | nil => exact h.nil_eq
  | cons x l =>
    cases l with
    | nil => exact h.singleton_eq
    | cons y l' =>
      simp only [List.length_cons] at hl
      omega

/-- C1: merging a discovery batch never changes the label, notes, group,
first-observed or address of a record that already exists; an address the
batch does not mention keeps its record verbatim; an address the batch
mentions exactly once receives exactly the old record with the liveness
fields overwritten, and its last-observed becomes the merge time. -/
theorem merge_preserves_user_fields (t : Int) (m : DeviceMap)
    (L : List Device) (a : String) (ex : Device) (hex : m a = some ex) :
    (∀ r, mergeList t m L a = some r →
      r.Label = ex.Label ∧ r.Notes = ex.Notes ∧ r.Group = ex.Group ∧
      r.FirstSeen = ex.FirstSeen ∧ r.IP = ex.IP)
  ∧ (mergeList t m L a).isSome = true
  ∧ ((∀ d ∈ L, d.IP ≠ a) → mergeList t m L a = some ex)
  ∧ (∀ d', L.filter (fun d => d.IP = a) = [d'] →
      mergeList t m L a = some (mergeRecord ex d' t))
  ∧ (L.any (fun d => d.IP = a) = true →
      ∀ r, mergeList t m L a = some r → r.LastSeen = t) := by
  have hchar : mergeList t m L a =
      some (mergeFold t ex (L.filter fun d => d.IP = a)) := by
    rw [mergeList_char, hex]
    rfl
  refine ⟨?_, ?_, ?_, ?_, ?_⟩
  · intro r hr
    rw [hchar] at hr
    obtain rfl : mergeFold t ex (L.filter fun d => d.IP = a) = r :=
      Option.some.inj hr
    exact mergeFold_user t _ ex
  · rw [hchar]; rfl
  · intro hnone
    have hnil : L.filter (fun d => d.IP = a) = [] := by
      rw [List.filter_eq_nil_iff]
      intro x hx
      simp only [decide_eq_true_eq]
      exact hnone x hx
    rw [hchar, hnil]
    rfl
  · intro d' hf
    rw [hchar, hf]
    rfl
  · intro hany r hr
    obtain ⟨x, hxL, hx⟩ := List.any_eq_true.mp hany
    rw [hchar] at hr
    obtain rfl : mergeFold t ex (L.filter fun d => d.IP = a) = r :=
      Option.some.inj hr
    have hxf : x ∈ L.filter (fun d => d.IP = a) :=
      List.mem_filter.mpr ⟨hxL, hx⟩
    cases hh : L.filter (fun d => d.IP = a) with
    | nil => rw [hh] at hxf; cases hxf
    | cons d rest => exact mergeFold_cons_lastSeen t rest d ex

/-- Witness for C1: the specification's television scenario. -/
theorem merge_preserves_user_fields_w :
    mergeList 9 mapTV [devTVScan] "10.0.0.5" = some (mergeRecord devTV devTVScan 9) ∧
    (mergeRecord devTV devTVScan 9).Label = "TV" ∧
    (mergeRecord devTV devTVScan 9).Group = "Living Room" ∧
    (mergeRecord devTV devTVScan 9).Hostname = "tv2" ∧
    (mergeRecord devTV devTVScan 9).FirstSeen = 1 ∧
    (mergeRecord devTV devTVScan 9).LastSeen = 9 :=
  ⟨(merge_preserves_user_fields 9 mapTV [devTVScan] "10.0.0.5" devTV rfl).2.2.2.1
      devTVScan (by decide),
   by decide, by decide, by decide, by decide, by decide⟩

/-- C2 counterexample: two discoveries sharing one address but differing in
hardware address form a batch whose permutation changes the merged device
map — the later occurrence's liveness data wins. -/
theorem merge_perm_counterexample :
    [dupA, dupB].Perm [dupB, dupA] ∧
    Option.map Device.MAC (mergeList 0 (fun _ => none) [dupA, dupB] "10.0.0.7")
      = some "66:77:88:99:AA:BB" ∧
    Option.map Device.MAC (mergeList 0 (fun _ => none) [dupB, dupA] "10.0.0.7")
      = some "00:11:22:33:44:55" ∧
    mergeList 0 (fun _ => none) [dupA, dupB] "10.0.0.7" ≠
      mergeList 0 (fun _ => none) [dupB, dupA] "10.0.0.7" := by
  refine ⟨List.Perm.swap dupB dupA [], rfl, rfl, ?_⟩
  intro h
  have h2 : (some "66:77:88:99:AA:BB" : Option String) = some "00:11:22:33:44:55" := by
    calc some "66:77:88:99:AA:BB"
        = Option.map Device.MAC (mergeList 0 (fun _ => none) [dupA, dupB] "10.0.0.7") := rfl
      _ = Option.map Device.MAC (mergeList 0 (fun _ => none) [dupB, dupA] "10.0.0.7") := by
          rw [h]
      _ = some "00:11:22:33:44:55" := rfl
  exact absurd h2 (by decide)

/-- C2 (amended): merging the same batch twice yields the same device map as
merging it once, except that last-observed advances to the later merge time
on every address the batch mentions; and when the batch mentions no address
twice, permuting it does not change the final device map. -/
theorem merge_idempotent_and_commutative_nodup :
    (∀ (t1 t2 : Int) (m : DeviceMap) (L : List Device) (a : String),
      mergeList t2 (mergeList t1 m L) L a =
        (mergeList t1 m L a).map
          (fun r => if L.any (fun d => d.IP = a) then { r with LastSeen := t2 } else r))
  ∧ (∀ (t : Int) (m : DeviceMap) (L1 L2 : List Device) (a : String),
      (L1.map Device.IP).Nodup → L1.Perm L2 →
      mergeList t m L1 a = mergeList t m L2 a) := by
  constructor
  · intro t1 t2 m L a
    simp only [mergeList_char]
    cases hh : L.filter (fun d => d.IP = a) with
    | nil =>
      have hany : L.any (fun d => d.IP = a) = false := by
        rw [List.any_eq_false]
        intro x hx
        have := List.filter_eq_nil_iff.mp hh x hx
        simpa using this
      rw [hany]
      cases m a <;> simp [mergeHits_nil]
    | cons d rest =>
      have hany : L.any (fun d => d.IP = a) = true := by
        rw [List.any_eq_true]
        have hd : d ∈ L.filter (fun d => d.IP = a) := by
          rw [hh]; exact List.mem_cons_self d rest
        have hmem := List.mem_filter.mp hd
        exact ⟨d, hmem.1, hmem.2⟩
      rw [hany, mergeHits_idem_ne]
      simp
  · intro t m L1 L2 a h1 hperm
    simp only [mergeList_char]
    have hpf : (L1.filter (fun d => d.IP = a)).Perm (L2.filter (fun d => d.IP = a)) :=
      hperm.filter _
    rw [perm_len_le_one_eq hpf (filterHits_len_le_one L1 a h1)]

/-- Witness for C2 (amended): the television scenario merged twice, and a
duplicate-free two-device batch merged in both orders. -/
theorem merge_idempotent_and_commutative_nodup_w :
    mergeList 3 (mergeList 2 mapTV [devTVScan]) [devTVScan] "10.0.0.5" =
      (mergeList 2 mapTV [devTVScan] "10.0.0.5").map
        (fun r => if [devTVScan].any (fun d => d.IP = "10.0.0.5") then
          { r with LastSeen := 3 } else r) ∧
    mergeList 1 (fun _ => none) [devTVScan, dupA] "10.0.0.7" =
      mergeList 1 (fun _ => none) [dupA, devTVScan] "10.0.0.7" :=
  ⟨merge_idempotent_and_commutative_nodup.1 2 3 mapTV [devTVScan] "10.0.0.5",
   merge_idempotent_and_commutative_nodup.2 1 (fun _ => none)
     [devTVScan, dupA] [dupA, devTVScan] "10.0.0.7" (by decide)
     (List.Perm.swap dupA devTVScan [])⟩

/-- C6 counterexample: a discovery carrying a non-empty label is stored with
that label on first sighting — the merge does not blank the user-owned
fields of a record it creates, it stores the discovered record as given. -/
theorem merge_new_label_counterexample :
    Option.map Device.Label (mergeList 7 (fun _ => none) [devLabelled] "10.0.0.9")
      = some "oops" ∧ "oops" ≠ "" :=
  ⟨rfl, by decide⟩

/-- C6 (amended): when a batch contains exactly one discovery for an address
without an existing record, the created record has first-observed and
last-observed equal to the merge time and carries the discovery's own label,
notes and group — empty whenever the discovery's are, as scanner-produced
discoveries always are. -/
theorem merge_creates_new_record (t : Int) (m : DeviceMap)
    (L : List Device) (d : Device) (hnew : m d.IP = none)
    (hhits : L.filter (fun x => x.IP = d.IP) = [d]) :
    mergeList t m L d.IP = some (newRecord d t) ∧
    (newRecord d t).FirstSeen = t ∧ (newRecord d t).LastSeen = t ∧
    (newRecord d t).Label = d.Label ∧ (newRecord d t).Notes = d.Notes ∧
    (newRecord d t).Group = d.Group := by
  refine ⟨?_, rfl, rfl, rfl, rfl, rfl⟩
  rw [mergeList_char, hnew, hhits]
  rfl

/-- Witness for C6 (amended): a fresh scan discovery with empty annotation
fields is created with them empty and both timestamps at the merge time. -/
theorem merge_creates_new_record_w :
    mergeList 3 (fun _ => none) [devTVScan] "10.0.0.5" = some (newRecord devTVScan 3) ∧
    (newRecord devTVScan 3).FirstSeen = 3 ∧ (newRecord devTVScan 3).LastSeen = 3 ∧
    (newRecord devTVScan 3).Label = "" ∧ (newRecord devTVScan 3).Notes = "" ∧
    (newRecord devTVScan 3).Group = "" :=
  merge_creates_new_record 3 (fun _ => none) [devTVScan] devTVScan rfl (by decide)

/-- C9: merging a discovery for an existing address replaces the stored
hardware address, hostname, vendor and latency with the discovery's values
unconditionally — even when they are empty strings or an absent latency —
and sets last-observed to the merge time, while the record's address is not
changed at all. -/
theorem merge_overwrites_liveness (t : Int) (m : DeviceMap) (d ex : Device)
    (hex : m d.IP = some ex) :
    mergeList t m [d] d.IP = some (mergeRecord ex d t) ∧
    (mergeRecord ex d t).MAC = d.MAC ∧
    (mergeRecord ex d t).Hostname = d.Hostname ∧
    (mergeRecord ex d t).Vendor = d.Vendor ∧
    (mergeRecord ex d t).ResponseTime = d.ResponseTime ∧
    (mergeRecord ex d t).LastSeen = t ∧
    (mergeRecord ex d t).IP = ex.IP := by
  refine ⟨?_, rfl, rfl, rfl, rfl, rfl, rfl⟩
  show mergeOne t m d d.IP = some (mergeRecord ex d t)
  simp [mergeOne, hex]

/-- Witness for C9: a discovery with empty hardware address, hostname and
vendor and no latency blanks those fields of the stored television record. -/
theorem merge_overwrites_liveness_w :
    mergeList 4 mapTV [devEmptyScan] "10.0.0.5"
      = some (mergeRecord devTV devEmptyScan 4) ∧
    (mergeRecord devTV devEmptyScan 4).MAC = "" ∧
    (mergeRecord devTV devEmptyScan 4).Hostname = "" ∧
    (mergeRecord devTV devEmptyScan 4).Vendor = "" ∧
    (mergeRecord devTV devEmptyScan 4).ResponseTime = none ∧
    (mergeRecord devTV devEmptyScan 4).IP = "10.0.0.5" :=
  ⟨(merge_overwrites_liveness 4 mapTV devEmptyScan devTV rfl).1,
   by decide, by decide, by decide, by decide, by decide⟩

/-- C7: a zero last-scan time always allows with zero wait; for a non-zero
one the check allows exactly when the elapsed time reaches the configured
minimum interval; a denied check returns the positive remainder of the
interval, and that remainder strictly decreases as the clock advances while
the check is still denied. -/
theorem checkRateLimit_spec (s : Scanner) (now1 now2 last : Int) :
    s.CheckRateLimit now1 0 = (true, 0)
  ∧ (last ≠ 0 → ((s.CheckRateLimit now1 last).1 = true ↔ s.minInterval ≤ now1 - last))
  ∧ (last ≠ 0 → now1 - last < s.minInterval →
      s.CheckRateLimit now1 last = (false, s.minInterval - (now1 - last)) ∧
      0 < s.minInterval - (now1 - last))
  ∧ (last ≠ 0 → now1 < now2 → now2 - last < s.minInterval →
      (s.CheckRateLimit now2 last).2 < (s.CheckRateLimit now1 last).2) := by
  refine ⟨rfl, ?_, ?_, ?_⟩
  · intro h
    simp only [Scanner.CheckRateLimit, if_neg h]
    by_cases hle : s.minInterval ≤ now1 - last
    · simp [hle]
    · simp [hle]
  · intro h hlt
    simp only [Scanner.CheckRateLimit, if_neg h]
    rw [if_neg (by omega)]
    exact ⟨rfl, by omega⟩
  · intro h h12 hlt2
    simp only [Scanner.CheckRateLimit, if_neg h]
    rw [if_neg (by omega), if_neg (by omega)]
    simp only
    omega

/-- Witness for C7 at a ten-unit interval: never scanned allows; two units
after a scan the check denies with eight remaining; two units later the
remaining wait has shrunk. -/
theorem checkRateLimit_spec_w :
    Scanner.CheckRateLimit ⟨10⟩ 3 0 = (true, 0) ∧
    Scanner.CheckRateLimit ⟨10⟩ 3 1 = (false, 10 - (3 - 1)) ∧
    (0 : Int) < 10 - (3 - 1) ∧
    (Scanner.CheckRateLimit ⟨10⟩ 5 1).2 < (Scanner.CheckRateLimit ⟨10⟩ 3 1).2 :=
  ⟨(checkRateLimit_spec ⟨10⟩ 3 5 1).1,
   ((checkRateLimit_spec ⟨10⟩ 3 5 1).2.2.1 (by decide) (by decide)).1,
   ((checkRateLimit_spec ⟨10⟩ 3 5 1).2.2.1 (by decide) (by decide)).2,
   (checkRateLimit_spec ⟨10⟩ 3 5 1).2.2.2 (by decide) (by decide) (by decide)⟩

/-- C8: `GetMACVendor` computes exactly the specification's vendor
resolution on every hardware-address string — upper-case, normalize dashes
to colons, look the first eight characters up in the static prefix table,
defaulting to Unknown on no match or a missing or too-short address — and
behaves as required on concrete representatives of each case. -/
theorem getMACVendor_matches_spec :
    (∀ mac, GetMACVendor mac = vendorResolutionSpec mac)
  ∧ GetMACVendor "b8-27-eb-01-02-03" = "Raspberry Pi"
  ∧ GetMACVendor "dc:a6:32:ff:00:01" = "Raspberry Pi"
  ∧ GetMACVendor "" = "Unknown"
  ∧ GetMACVendor "B8:27" = "Unknown"
  ∧ GetMACVendor "FF:FF:FF:00:00:00" = "Unknown" := by
  refine ⟨?_, by decide, by decide, by decide, by decide, by decide⟩
  intro mac
  by_cases h : mac = ""
  · subst h; rfl
  · simp only [GetMACVendor, vendorResolutionSpec, if_neg h]
    by_cases hlen : (normalizeMAC mac).length < 8
    · simp [hlen]
    · simp only [if_neg hlen]
      cases hl : macVendors.lookup ⟨(normalizeMAC mac).data.take 8⟩ <;> simp [hl]

/-- C5 counterexample: `Scan` on the malformed range "not-a-cidr" returns a
Go error — a nil result and a non-nil error, the scanner.go line 76 path —
rather than a ScanResult with success=false, and consults no backend. -/
theorem scan_invalid_cidr_counterexample :
    Scan (Except.error "nmap not found") (Except.error "arp-scan not found") 0 0
      "not-a-cidr" = (Except.error "invalid CIDR", false) := rfl

/-- C5 (amended): a malformed target range makes `Scan` return a descriptive
Go error without consulting any backend; a ScanResult with success=false
carrying the last error's message arises only when the range is well-formed
and both backends fail. -/
theorem scan_error_paths :
    (∀ (nm ar : Except String (List Device × String)) (dur : Rat) (t : Int)
        (cidr : String), parseCIDR cidr = none →
      Scan nm ar dur t cidr = (Except.error "invalid CIDR", false) ∧
      "invalid CIDR" ≠ "")
  ∧ (∀ (e1 e2 : String) (dur : Rat) (t : Int) (cidr : String)
        (ip4 : Nat × Nat × Nat × Nat) (n : Nat), parseCIDR cidr = some (ip4, n) →
      Scan (Except.error e1) (Except.error e2) dur t cidr =
        (Except.ok
          { Success := false, Error := e2, Devices := [], DeviceCount := 0,
            Network := cidr, Scanner := "", Duration := 0, Timestamp := t }, true)) := by
  constructor
  · intro nm ar dur t cidr h
    refine ⟨?_, by decide⟩
    simp [Scan, h]
  · intro e1 e2 dur t cidr ip4 n h
    simp [Scan, h]

/-- Witness for C5 (amended): a malformed range yields the error return and
no backend call; a well-formed range with both backends unavailable yields
the success=false ScanResult carrying the fallback backend's message. -/
theorem scan_error_paths_w :
    Scan (Except.error "nmap not found") (Except.error "arp-scan not found") 0 1
      "definitely not a cidr" = (Except.error "invalid CIDR", false) ∧
    Scan (Except.error "nmap not found") (Except.error "arp-scan not found") 0 1
      "192.168.1.0/24" =
      (Except.ok
        { Success := false, Error := "arp-scan not found", Devices := [],
          DeviceCount := 0, Network := "192.168.1.0/24", Scanner := "",
          Duration := 0, Timestamp := 1 }, true) :=
  ⟨(scan_error_paths.1 (Except.error "nmap not found")
      (Except.error "arp-scan not found") 0 1 "definitely not a cidr" (by decide)).1,
   scan_error_paths.2 "nmap not found" "arp-scan not found" 0 1 "192.168.1.0/24"
     (192, 168, 1, 0) 24 (by decide)⟩

/-- C3 counterexample: the devices document is on disk before a merge, and
after the merge has persisted, the `.backup` sibling still does not exist —
the store's mutating operations never copy the previous file there. -/
theorem persist_no_backup_counterexample :
    fsW "devices.json" = some (FileData.devJson mapW) ∧
    (Store.MergeDevices stW fsW 5 [devTVScan]).2 "devices.json.backup" = none :=
  ⟨rfl, rfl⟩

/-- C3 (amended): every mutating store operation persists by atomically
writing the full device map over the devices file and touches no other path
— in particular it never writes a `.backup` sibling.  (The `.backup` copy
the specification describes exists only in the PHP front end's save path,
not in this store.) -/
theorem persist_atomic_no_backup (st : Store) (fs : FS) (t : Int)
    (L : List Device) (dev : Device) (ip : String) (lb nt gp : Option String)
    (q : String) (hq : q ≠ st.devicesFile) :
    (Store.MergeDevices st fs t L).2 q = fs q
  ∧ (Store.MergeDevices st fs t L).2 st.devicesFile
      = some (FileData.devJson (mergeList t st.devices L))
  ∧ (Store.UpdateDevice st fs dev).2 q = fs q
  ∧ fsAfter (Store.UpdateDeviceFields st fs ip lb nt gp) fs q = fs q
  ∧ fsAfter (Store.DeleteDevice st fs ip) fs q = fs q := by
  refine ⟨?_, ?_, ?_, ?_, ?_⟩
  · simp [Store.MergeDevices, saveDevices, atomicWrite, hq]
  · simp [Store.MergeDevices, saveDevices, atomicWrite]
  · simp [Store.UpdateDevice, saveDevices, atomicWrite, hq]
  · cases hd : st.devices ip with
    | none => simp [Store.UpdateDeviceFields, hd, fsAfter]
    | some d =>
      simp [Store.UpdateDeviceFields, hd, fsAfter, saveDevices, atomicWrite, hq]
  · cases hd : st.devices ip with
    | none => simp [Store.DeleteDevice, hd, fsAfter]
    | some d =>
      simp [Store.DeleteDevice, hd, fsAfter, saveDevices, atomicWrite, hq]

/-- Witness for C3 (amended): after each mutating operation on the example
store, the `.backup` sibling path is exactly as it was, and the merge has
rewritten the devices file with the merged map. -/
theorem persist_atomic_no_backup_w :
    (Store.MergeDevices stW fsW 5 [devTVScan]).2 "devices.json.backup"
      = fsW "devices.json.backup"
  ∧ (Store.MergeDevices stW fsW 5 [devTVScan]).2 "devices.json"
      = some (FileData.devJson (mergeList 5 stW.devices [devTVScan]))
  ∧ (Store.UpdateDevice stW fsW devTV).2 "devices.json.backup"
      = fsW "devices.json.backup"
  ∧ fsAfter (Store.UpdateDeviceFields stW fsW "10.0.0.5" none none none) fsW
      "devices.json.backup" = fsW "devices.json.backup"
  ∧ fsAfter (Store.DeleteDevice stW fsW "10.0.0.5") fsW "devices.json.backup"
      = fsW "devices.json.backup" :=
  persist_atomic_no_backup stW fsW 5 [devTVScan] devTV "10.0.0.5" none none none
    "devices.json.backup" (by decide)

theorem loadDevices_congr {fs1 fs2 : FS} (p : String) (h : fs1 p = fs2 p) :
    loadDevices fs1 p = loadDevices fs2 p := by
  unfold loadDevices
  rw [h]

theorem loadState_congr {fs1 fs2 : FS} (p : String) (h : fs1 p = fs2 p) :
    loadState fs1 p = loadState fs2 p := by
  unfold loadState
  rw [h]

/-- C4 counterexample: with the primary devices file undecodable — and even
with a perfectly valid `.backup` sibling on disk — store construction fails
instead of recovering from the backup or starting empty. -/
theorem load_corrupt_fails_counterexample :
    storageNew "devices.json" "scan_state.json" fsCorruptWithBackup
      = Except.error StorageErr.loadDevicesFailed ∧
    fsCorruptWithBackup "devices.json.backup" = some (FileData.devJson mapW) :=
  ⟨rfl, rfl⟩

/-- C4 (amended): an absent or empty devices file lets construction start
from the empty device map and a devices document is loaded as the map, but
undecodable content fails construction; the load consults only the two
primary paths, so the `.backup` sibling is never read.  (Backup recovery
exists only in the PHP front end's read path.) -/
theorem load_recovery_behavior :
    (∀ (df sf : String) (fs : FS), fs df = none → fs sf = none →
      storageNew df sf fs = Except.ok (emptyStore df sf))
  ∧ (∀ (df sf : String) (fs : FS), fs df = some FileData.emptyFile → fs sf = none →
      storageNew df sf fs = Except.ok (emptyStore df sf))
  ∧ (∀ (df sf : String) (fs : FS) (m : DeviceMap),
      fs df = some (FileData.devJson m) → fs sf = none →
      storageNew df sf fs = Except.ok { emptyStore df sf with devices := m })
  ∧ (∀ (df sf : String) (fs : FS), fs df = some FileData.corrupt →
      storageNew df sf fs = Except.error StorageErr.loadDevicesFailed)
  ∧ (∀ (df sf : String) (fs1 fs2 : FS), fs1 df = fs2 df → fs1 sf = fs2 sf →
      storageNew df sf fs1 = storageNew df sf fs2) := by
  refine ⟨?_, ?_, ?_, ?_, ?_⟩
  · intro df sf fs h1 h2
    simp [storageNew, loadDevices, loadState, h1, h2]
  · intro df sf fs h1 h2
    simp [storageNew, loadDevices, loadState, h1, h2, emptyStore]
  · intro df sf fs m h1 h2
    simp [storageNew, loadDevices, loadState, h1, h2]
  · intro df sf fs h1
    simp [storageNew, loadDevices, h1]
  · intro df sf fs1 fs2 h1 h2
    unfold storageNew
    rw [loadDevices_congr df h1, loadState_congr sf h2]

/-- Witness for C4 (amended): construction over an empty file system starts
empty; construction over the corrupt-with-backup file system fails; two file
systems that agree on the two primary paths construct identically even
though one of them carries a backup file. -/
theorem load_recovery_behavior_w :
    storageNew "devices.json" "scan_state.json" (fun _ => none)
      = Except.ok (emptyStore "devices.json" "scan_state.json")
  ∧ storageNew "devices.json" "scan_state.json" fsCorruptWithBackup
      = Except.error StorageErr.loadDevicesFailed
  ∧ storageNew "d.json" "s.json" fsW = storageNew "d.json" "s.json" (fun _ => none) :=
  ⟨load_recovery_behavior.1 "devices.json" "scan_state.json" (fun _ => none) rfl rfl,
   load_recovery_behavior.2.2.2.1 "devices.json" "scan_state.json"
     fsCorruptWithBackup rfl,
   load_recovery_behavior.2.2.2.2 "d.json" "s.json" fsW (fun _ => none) rfl rfl⟩

/-- C10: updating fields of, or deleting, an address without a record
returns the not-found error naming that address and leaves both the
in-memory store and the file system untouched — no write is attempted; for
an address that has a record, neither operation produces a not-found
error. -/
theorem notFound_error_semantics (st : Store) (fs : FS) (ip : String)
    (lb nt gp : Option String) :
    (st.devices ip = none →
      Store.UpdateDeviceFields st fs ip lb nt gp
        = Except.error (StorageErr.notFound ip)
      ∧ Store.DeleteDevice st fs ip = Except.error (StorageErr.notFound ip)
      ∧ stAfter (Store.UpdateDeviceFields st fs ip lb nt gp) st = st
      ∧ fsAfter (Store.UpdateDeviceFields st fs ip lb nt gp) fs = fs
      ∧ stAfter (Store.DeleteDevice st fs ip) st = st
      ∧ fsAfter (Store.DeleteDevice st fs ip) fs = fs)
  ∧ (∀ d, st.devices ip = some d →
      (∀ b, Store.UpdateDeviceFields st fs ip lb nt gp
        ≠ Except.error (StorageErr.notFound b))
      ∧ (∀ b, Store.DeleteDevice st fs ip ≠ Except.error (StorageErr.notFound b))) := by
  constructor
  · intro h
    refine ⟨?_, ?_, ?_, ?_, ?_, ?_⟩ <;>
      simp [Store.UpdateDeviceFields, Store.DeleteDevice, h, stAfter, fsAfter]
  · intro d h
    constructor <;> intro b hcontra <;>
      simp [Store.UpdateDeviceFields, Store.DeleteDevice, h] at hcontra

/-- Witness for C10: on the example store, the unknown address 10.9.9.9
yields the not-found error from both operations and changes nothing, while
the stored address 10.0.0.5 yields a not-found error from neither. -/
theorem notFound_error_semantics_w :
    Store.UpdateDeviceFields stW fsW "10.9.9.9" none none none
      = Except.error (StorageErr.notFound "10.9.9.9")
  ∧ Store.DeleteDevice stW fsW "10.9.9.9"
      = Except.error (StorageErr.notFound "10.9.9.9")
  ∧ fsAfter (Store.DeleteDevice stW fsW "10.9.9.9") fsW = fsW
  ∧ Store.UpdateDeviceFields stW fsW "10.0.0.5" none none none
      ≠ Except.error (StorageErr.notFound "10.0.0.5")
  ∧ Store.DeleteDevice stW fsW "10.0.0.5"
      ≠ Except.error (StorageErr.notFound "10.0.0.5") :=
  ⟨((notFound_error_semantics stW fsW "10.9.9.9" none none none).1 rfl).1,
   ((notFound_error_semantics stW fsW "10.9.9.9" none none none).1 rfl).2.1,
   ((notFound_error_semantics stW fsW "10.9.9.9" none none none).1 rfl).2.2.2.2.2,
   ((notFound_error_semantics stW fsW "10.0.0.5" none none none).2 devTV rfl).1
     "10.0.0.5",
   ((notFound_error_semantics stW fsW "10.0.0.5" none none none).2 devTV rfl).2
     "10.0.0.5"⟩
